import Mathlib

/-!
Verification of the smart-router core of the ableton-mcp-extended repository.

Python floats are modelled as rationals (`ℚ`), JSON dictionaries with a known
shape as structures whose optional keys are `Option` fields, and the router's
mutable smoothing state (`SmartRouter._last_values`) as an association list
from composite keys to rationals, looked up with `List.lookup` (matching the
observable behaviour of a Python dict: the most recent assignment wins).
-/

namespace SmartRouter

/-- Rational model of `clamp` from `smart_router/router.py` lines 24-25:
`max(min_value, min(max_value, value))`, bounds taken in the given order. -/
def clamp (value minValue maxValue : ℚ) : ℚ :=
  max minValue (min maxValue value)

/-- The `target` sub-dictionary of a mapping.  Each index is read with
`.get(...)` in the source, so a missing key is `none`. -/
structure Target where
  track_index : Option Int
  device_index : Option Int
  parameter_index : Option Int
deriving DecidableEq, Repr

/-- A mapping entry of the routing configuration, as consumed by
`SmartRouter._apply_mapping` and `ConfigManager.get_mappings_for_stream`.
`range = none` models an absent or malformed `range` entry (the source falls
back to `[0.0, 1.0]` in both cases); `smoothing = none` models an absent
`smoothing` key (source default `0.0`); `enabled = none` models an absent
`enabled` key (source default `True`). -/
structure Mapping where
  motion_stream : String
  target : Target
  target_meta : Option String
  display_name : Option String
  range : Option (ℚ × ℚ)
  smoothing : Option ℚ
  enabled : Option Bool
  updated_at : Option ℚ
deriving DecidableEq, Repr

/-- Composite smoothing key, from `router.py` line 152:
`f"{stream_name}:{track_index}:{device_index}:{parameter_index}"`. -/
def mappingKey (streamName : String) (trackIndex deviceIndex parameterIndex : Int) : String :=
  streamName ++ ":" ++ toString trackIndex ++ ":" ++ toString deviceIndex
    ++ ":" ++ toString parameterIndex

/-- One outbound `set_device_parameter` command handed to the Transport
Sender (`UDPSender.send_set_device_parameter`). -/
structure SendCmd where
  track_index : Int
  device_index : Int
  parameter_index : Int
  value : ℚ
deriving DecidableEq, Repr

/-- Model of `SmartRouter._apply_mapping` (`router.py` lines 139-173).
Returns the updated `_last_values` store together with the command passed to
the sender (`none` when any target index is missing and the method returns
early). -/
def apply_mapping (lastValues : List (String × ℚ)) (streamName : String)
    (rawValue : ℚ) (mapping : Mapping) : List (String × ℚ) × Option SendCmd :=
  match mapping.target.track_index, mapping.target.device_index,
        mapping.target.parameter_index with
  | some trackIndex, some deviceIndex, some parameterIndex =>
      let normalized := clamp rawValue 0 1
      let smoothing := clamp (mapping.smoothing.getD 0) 0 1
      let key := mappingKey streamName trackIndex deviceIndex parameterIndex
      let normalized2 :=
        if 0 < smoothing then
          smoothing * ((List.lookup key lastValues).getD normalized)
            + (1 - smoothing) * normalized
        else normalized
      let lastValues2 := (key, normalized2) :: lastValues
      let outRange := mapping.range.getD (0, 1)
      let value := clamp (outRange.1 + normalized2 * (outRange.2 - outRange.1))
        outRange.1 outRange.2
      (lastValues2, some ⟨trackIndex, deviceIndex, parameterIndex, value⟩)
  | _, _, _ => (lastValues, none)

end SmartRouter

namespace SmartRouter

/-- A mapping has a well-formed target when all three indices are present
(the condition checked at `router.py` lines 145-146). -/
def has_target (m : Mapping) : Bool :=
  m.target.track_index.isSome && m.target.device_index.isSome
    && m.target.parameter_index.isSome

/-- A settings value as stored in the config JSON (`DEFAULT_CONFIG` uses
numbers, strings and booleans). -/
inductive SettingVal where
  | num (value : ℚ)
  | str (value : String)
  | boolean (value : Bool)
deriving DecidableEq, Repr

/-- A settings dictionary. -/
abbrev Settings := List (String × SettingVal)

/-- The `settings` section of `DEFAULT_CONFIG` (`config_manager.py`
lines 21-31). -/
def default_settings : Settings :=
  [("mocap_port", SettingVal.num 9877),
   ("ableton_host", SettingVal.str "localhost"),
   ("ableton_port", SettingVal.num 9878),
   ("auto_discover_streams", SettingVal.boolean true),
   ("streams_cache_interval", SettingVal.num (1/2)),
   ("streams_ttl_seconds", SettingVal.num 5)]

/-- In-memory routing configuration (`ConfigManager._config` after
normalization): a settings dictionary plus a list of mappings. -/
structure RoutingConfig where
  settings : Settings
  mappings : List Mapping
deriving Repr

/-- Model of `ConfigManager.get_mappings_for_stream` (`config_manager.py`
lines 107-110): keep mappings whose `motion_stream` equals the requested
name and whose `enabled` field, defaulted to `True` when absent, is true. -/
def get_mappings_for_stream (cfg : RoutingConfig) (stream_name : String) : List Mapping :=
  cfg.mappings.filter (fun m => m.motion_stream == stream_name && m.enabled.getD true)

/-- Model of the per-mapping loop of `SmartRouter._main_loop`
(`router.py` lines 136-137): apply each mapping in order, threading the
`_last_values` store, and collect the dispatched commands. -/
def apply_mappings (lastValues : List (String × ℚ)) (streamName : String)
    (rawValue : ℚ) : List Mapping → List (String × ℚ) × List SendCmd
  | [] => (lastValues, [])
  | m :: ms =>
      let r := apply_mapping lastValues streamName rawValue m
      let rest := apply_mappings r.1 streamName rawValue ms
      (rest.1, r.2.toList ++ rest.2)

/-- Processing of a single numeric entry of an inbound batch by the Router
Engine (`router.py` lines 130-137): fetch the enabled mappings for the
stream and apply each. -/
def process_stream_sample (cfg : RoutingConfig) (lastValues : List (String × ℚ))
    (streamName : String) (rawValue : ℚ) : List (String × ℚ) × List SendCmd :=
  apply_mappings lastValues streamName rawValue (get_mappings_for_stream cfg streamName)

end SmartRouter

namespace SmartRouter

/-- A mapping payload as received by the create/update endpoints
(`router.py` lines 333-371).  Each field is `none` when the corresponding
JSON key is absent.  `range = none` covers an absent `range` key (the source
indexes into the default `[0.0, 1.0]` in that case). -/
structure MappingPayload where
  motion_stream : Option String
  target : Target
  track_index : Option Int
  device_index : Option Int
  parameter_index : Option Int
  range_min : Option ℚ
  range_max : Option ℚ
  range : Option (ℚ × ℚ)
  smoothing : Option ℚ
  enabled : Option Bool
  display_name : Option String
  target_meta : Option String
deriving DecidableEq, Repr

/-- Target resolution of `_normalize_mapping_payload` (`router.py` lines
338-344): a top-level `track_index`/`device_index`/`parameter_index` key
overrides the corresponding entry of the nested `target` dictionary. -/
def resolve_target (payload : MappingPayload) : Target :=
  { track_index := payload.track_index.orElse (fun _ => payload.target.track_index)
    device_index := payload.device_index.orElse (fun _ => payload.target.device_index)
    parameter_index := payload.parameter_index.orElse (fun _ => payload.target.parameter_index) }

/-- Default display name synthesized at `router.py` line 355. -/
def default_display_name (t d p : Int) : String :=
  "Track " ++ toString t ++ " Device " ++ toString d ++ " Param " ++ toString p

/-- Model of `SmartRouter._normalize_mapping_payload` (`router.py` lines
333-371).  A falsy (`None` or empty) `motion_stream` and a missing target
index are rejected; `range_min`/`range_max` default to the corresponding
component of `range` (itself defaulting to `[0.0, 1.0]`); `smoothing`
defaults to `0.0` and is stored without clamping; `enabled` defaults to
`True`; `updated_at` is set to the current time `now`. -/
def _normalize_mapping_payload (now : ℚ) (payload : MappingPayload) : Except String Mapping :=
  match payload.motion_stream with
  | none => Except.error "motion_stream is required"
  | some motionStream =>
    if motionStream = "" then Except.error "motion_stream is required"
    else
      match resolve_target payload with
      | ⟨some trackIndex, some deviceIndex, some parameterIndex⟩ =>
          let rangeMin := payload.range_min.getD (payload.range.getD (0, 1)).1
          let rangeMax := payload.range_max.getD (payload.range.getD (0, 1)).2
          let displayName :=
            match payload.display_name with
            | none => default_display_name trackIndex deviceIndex parameterIndex
            | some s =>
                if s = "" then default_display_name trackIndex deviceIndex parameterIndex else s
          Except.ok
            { motion_stream := motionStream
              target := ⟨some trackIndex, some deviceIndex, some parameterIndex⟩
              target_meta := payload.target_meta
              display_name := some displayName
              range := some (rangeMin, rangeMax)
              smoothing := some (payload.smoothing.getD 0)
              enabled := some (payload.enabled.getD true)
              updated_at := some now }
      | _ => Except.error "track_index, device_index, parameter_index are required"

/-- Modelled from the spec: `ConfigManager.add_mapping` is called by the
router's create endpoint (`router.py` line 196) but is not defined in the
provided `config_manager.py`.  Per the spec, a mapping is identified
uniquely by `motion_stream`, re-adding the same stream replaces its mapping
(the router-integrated variant treats create as an idempotent upsert), and
the operation is atomic under the config mutex. -/
def add_mapping (cfg : RoutingConfig) (mapping : Mapping) : RoutingConfig :=
  { cfg with
    mappings :=
      cfg.mappings.filter (fun m => m.motion_stream != mapping.motion_stream) ++ [mapping] }

/-- One decoded inbound datagram batch: a JSON object mapping stream names
to numeric values (`udp_receiver.py` lines 42-45). -/
abbrev MotionSample := List (String × ℚ)

/-- Model of the ingestion channel enqueue.  `SmartRouter.__init__`
(`router.py` line 31) constructs `Queue()` with the default `maxsize = 0`,
i.e. an unbounded FIFO queue, and `UDPReceiver._run` (`udp_receiver.py`
line 45) calls `queue.put(payload)`, which on an unbounded queue always
appends and never blocks or drops. -/
def queue_put (q : List MotionSample) (payload : MotionSample) : List MotionSample :=
  q ++ [payload]

/-- States of the ingestion channel reachable from the empty queue by the
listener enqueuing batches (`queue_put`) and the engine dequeuing the oldest
batch (`Queue.get` in `router.py` line 100). -/
inductive QueueReachable : List MotionSample → Prop where
  | init : QueueReachable []
  | put (q : List MotionSample) (payload : MotionSample) :
      QueueReachable q → QueueReachable (queue_put q payload)
  | take (payload : MotionSample) (q : List MotionSample) :
      QueueReachable (payload :: q) → QueueReachable q

/-- The raw value found under the `settings` key of a loaded config
document: a dictionary, or something that is not a dictionary (the source
checks `isinstance(data["settings"], dict)`). -/
inductive SettingsField where
  | dict (fields : Settings)
  | other
deriving DecidableEq, Repr

/-- The raw value found under the `mappings` key of a loaded config
document: a list of mappings, or something that is not a list (the source
checks `isinstance(data["mappings"], list)`). -/
inductive MappingsField where
  | list (items : List Mapping)
  | other
deriving Repr

/-- A parsed config document before normalization; `none` models a missing
key. -/
structure RawDoc where
  settings : Option SettingsField
  mappings : Option MappingsField

/-- Model of the normalization step of `ConfigManager.load_config`
(`config_manager.py` lines 95-101): a missing or non-dictionary `settings`
key is replaced by a copy of `DEFAULT_CONFIG["settings"]`, and a missing or
non-list `mappings` key is replaced by the empty list. -/
def load_config_normalize (doc : RawDoc) : RoutingConfig :=
  { settings :=
      match doc.settings with
      | some (SettingsField.dict fields) => fields
      | _ => default_settings
    mappings :=
      match doc.mappings with
      | some (MappingsField.list items) => items
      | _ => [] }

/-- Model of `ConfigManager.get_recent_streams` (`config_manager.py` lines
141-147): keep the names whose last-seen timestamp satisfies
`now - ts <= within_seconds`, in registry insertion order. -/
def get_recent_streams (stream_last_seen : List (String × ℚ))
    (now within_seconds : ℚ) : List String :=
  (stream_last_seen.filter (fun x => decide (now - x.2 ≤ within_seconds))).map Prod.fst

/-- One entry of the streams cache file written by
`ConfigManager._maybe_write_streams_cache`. -/
structure StreamEntry where
  name : String
  last_seen : ℚ
deriving DecidableEq, Repr

/-- Stable insertion of an entry into a list sorted by descending
`last_seen`: the entry goes after every existing entry with an equal or
larger timestamp. -/
def insert_by_last_seen (e : StreamEntry) : List StreamEntry → List StreamEntry
  | [] => [e]
  | x :: xs =>
      if x.last_seen < e.last_seen then e :: x :: xs else x :: insert_by_last_seen e xs

/-- Stable sort by descending `last_seen`, modelling
`streams.sort(key=lambda x: x["last_seen"], reverse=True)` at
`config_manager.py` line 133. -/
def sort_by_last_seen_desc (entries : List StreamEntry) : List StreamEntry :=
  entries.foldl (fun acc e => insert_by_last_seen e acc) []

/-- The stream list persisted by `ConfigManager._maybe_write_streams_cache`
(`config_manager.py` lines 127-133): registry entries filtered by
`now - ts <= ttl` and sorted most-recent-first. -/
def streams_cache_list (stream_last_seen : List (String × ℚ))
    (now ttl : ℚ) : List StreamEntry :=
  sort_by_last_seen_desc
    ((stream_last_seen.filter (fun x => decide (now - x.2 ≤ ttl))).map
      (fun x => ⟨x.1, x.2⟩))

/- ## Concrete instances used by witnesses and counterexamples -/

/-- A mapping whose `enabled` key is entirely absent, for C10. -/
def bare_mapping : Mapping :=
  { motion_stream := "hip-sway"
    target := ⟨some 3, some 4, some 5⟩
    target_meta := none
    display_name := none
    range := none
    smoothing := none
    enabled := none
    updated_at := none }

/-- A configuration whose only mapping is `bare_mapping`, for C10. -/
def bare_config : RoutingConfig :=
  { settings := default_settings
    mappings := [bare_mapping] }

/-- The spec scenario mapping for C1: stream `wrist-bend`, target `(0,1,2)`,
range `[20, 80]`, smoothing `0`. -/
def wrist_mapping : Mapping :=
  { motion_stream := "wrist-bend"
    target := ⟨some 0, some 1, some 2⟩
    target_meta := none
    display_name := none
    range := some (20, 80)
    smoothing := some 0
    enabled := some true
    updated_at := none }

/-- The spec scenario mapping for C2: same target, range `[0, 1]`,
smoothing `0.5`. -/
def blend_mapping : Mapping :=
  { motion_stream := "wrist-bend"
    target := ⟨some 0, some 1, some 2⟩
    target_meta := none
    display_name := none
    range := some (0, 1)
    smoothing := some (1/2)
    enabled := some true
    updated_at := none }

/-- A mapping with the inverted range `[80, 20]`, for C3. -/
def inverted_mapping : Mapping :=
  { motion_stream := "wrist-bend"
    target := ⟨some 0, some 1, some 2⟩
    target_meta := none
    display_name := none
    range := some (80, 20)
    smoothing := none
    enabled := some true
    updated_at := none }

/-- A valid create payload for C5 (enabled left absent, defaulting true). -/
def create_payload : MappingPayload :=
  { motion_stream := some "wrist-bend"
    target := ⟨none, none, none⟩
    track_index := some 0
    device_index := some 1
    parameter_index := some 2
    range_min := some 20
    range_max := some 80
    range := none
    smoothing := some 0
    enabled := none
    display_name := none
    target_meta := none }

/-- The mapping produced by normalizing `create_payload` at time `0`. -/
def created_mapping : Mapping :=
  { motion_stream := "wrist-bend"
    target := ⟨some 0, some 1, some 2⟩
    target_meta := none
    display_name := some "Track 0 Device 1 Param 2"
    range := some (20, 80)
    smoothing := some 0
    enabled := some true
    updated_at := some 0 }

/-- A valid create payload for the C5 counterexample: identical to
`create_payload` except that it explicitly sets `enabled = false`. -/
def disabled_payload : MappingPayload :=
  { create_payload with enabled := some false }

/-- The mapping produced by normalizing `disabled_payload` at time `0`. -/
def disabled_mapping : Mapping :=
  { created_mapping with enabled := some false }

/-- A valid create payload for C7 submitting the out-of-range smoothing
value `2.5`. -/
def overdrive_payload : MappingPayload :=
  { motion_stream := some "wrist-bend"
    target := ⟨none, none, none⟩
    track_index := some 0
    device_index := some 1
    parameter_index := some 2
    range_min := none
    range_max := none
    range := none
    smoothing := some (5/2)
    enabled := none
    display_name := none
    target_meta := none }

/-- The mapping produced by normalizing `overdrive_payload` at time `0`. -/
def overdrive_mapping : Mapping :=
  { motion_stream := "wrist-bend"
    target := ⟨some 0, some 1, some 2⟩
    target_meta := none
    display_name := some "Track 0 Device 1 Param 2"
    range := some (0, 1)
    smoothing := some (5/2)
    enabled := some true
    updated_at := some 0 }

end SmartRouter

namespace SmartRouter

/- ## Helper lemmas -/

/-- Inversion of a successful payload normalization: recover every field of
the produced mapping. -/
theorem normalize_ok_fields (now : ℚ) (payload : MappingPayload) (m : Mapping)
    (hok : _normalize_mapping_payload now payload = Except.ok m) :
    ∃ (name : String) (t d p : Int),
      payload.motion_stream = some name ∧ name ≠ "" ∧
      resolve_target payload = ⟨some t, some d, some p⟩ ∧
      m.motion_stream = name ∧
      m.target = ⟨some t, some d, some p⟩ ∧
      m.smoothing = some (payload.smoothing.getD 0) ∧
      m.enabled = some (payload.enabled.getD true) ∧
      m.range = some (payload.range_min.getD (payload.range.getD (0, 1)).1,
                      payload.range_max.getD (payload.range.getD (0, 1)).2) ∧
      m.updated_at = some now := by
  unfold _normalize_mapping_payload at hok
  split at hok
  · exact absurd hok (by simp)
  rename_i name hms
  split at hok
  · exact absurd hok (by simp)
  rename_i hne
  split at hok
  · rename_i t d p hres
    rw [Except.ok.injEq] at hok
    exact ⟨name, t, d, p, hms, hne, hres, by rw [← hok], by rw [← hok], by rw [← hok],
      by rw [← hok], by rw [← hok], by rw [← hok]⟩
  · exact absurd hok (by simp)

/-- Filtering for a stream finds nothing among mappings previously filtered
to other streams. -/
theorem filter_stream_of_removed (l : List Mapping) (s : String) (q : Mapping → Bool) :
    (l.filter (fun m => m.motion_stream != s)).filter
      (fun m => m.motion_stream == s && q m) = [] := by
  induction l with
  | nil => rfl
  | cons a l ih =>
      by_cases h : a.motion_stream = s
      · simp [List.filter_cons, h, ih]
      · simp [List.filter_cons, h, ih]

/-- After upserting a mapping whose effective `enabled` flag is true,
fetching the mappings for its stream returns exactly that mapping. -/
theorem get_for_stream_add (cfg : RoutingConfig) (m : Mapping)
    (hen : m.enabled.getD true = true) :
    get_mappings_for_stream (add_mapping cfg m) m.motion_stream = [m] := by
  rw [get_mappings_for_stream, add_mapping]
  rw [List.filter_append, filter_stream_of_removed]
  simp [List.filter_cons, hen]

/-- `_apply_mapping` dispatches a command exactly when the mapping has a
well-formed target. -/
theorem apply_mapping_isSome (lv : List (String × ℚ)) (stream : String)
    (raw : ℚ) (m : Mapping) :
    (apply_mapping lv stream raw m).2.isSome = has_target m := by
  rcases ht : m.target.track_index with _ | t <;>
    rcases hd : m.target.device_index with _ | d <;>
      rcases hp : m.target.parameter_index with _ | p <;>
        simp [apply_mapping, has_target, ht, hd, hp]

/-- Applying a list of mappings containing one with a well-formed target
dispatches at least one command. -/
theorem apply_mappings_ne_nil (stream : String) (raw : ℚ) (m : Mapping) :
    ∀ (ms : List Mapping) (lv : List (String × ℚ)),
      m ∈ ms → has_target m = true →
      (apply_mappings lv stream raw ms).2 ≠ [] := by
  intro ms
  induction ms with
  | nil =>
      intro lv h
      simp at h
  | cons a as ih =>
      intro lv hmem htgt hcontra
      simp only [apply_mappings] at hcontra
      obtain ⟨h1, h2⟩ := List.append_eq_nil.mp hcontra
      rcases List.mem_cons.mp hmem with rfl | hmem'
      · have hsome : (apply_mapping lv stream raw m).2.isSome = true := by
          rw [apply_mapping_isSome]
          exact htgt
        rcases ho : (apply_mapping lv stream raw m).2 with _ | c
        · rw [ho] at hsome
          simp at hsome
        · rw [ho] at h1
          simp [Option.toList] at h1
      · exact ih _ hmem' htgt h2

/-- Membership in a stable descending insertion. -/
theorem mem_insert_by_last_seen {y e : StreamEntry} :
    ∀ {l : List StreamEntry}, y ∈ insert_by_last_seen e l ↔ y = e ∨ y ∈ l := by
  intro l
  induction l with
  | nil => simp [insert_by_last_seen]
  | cons x xs ih =>
      by_cases h : x.last_seen < e.last_seen
      · simp only [insert_by_last_seen, if_pos h]
        simp
      · simp only [insert_by_last_seen, if_neg h]
        simp [ih]
        tauto

/-- Inserting into a descending-sorted list keeps it descending-sorted. -/
theorem insert_by_last_seen_pairwise (e : StreamEntry) (l : List StreamEntry)
    (h : l.Pairwise (fun a b => b.last_seen ≤ a.last_seen)) :
    (insert_by_last_seen e l).Pairwise (fun a b => b.last_seen ≤ a.last_seen) := by
  induction l with
  | nil => simp [insert_by_last_seen]
  | cons x xs ih =>
      obtain ⟨hx, hxs⟩ := List.pairwise_cons.mp h
      by_cases hlt : x.last_seen < e.last_seen
      · simp only [insert_by_last_seen, if_pos hlt]
        refine List.pairwise_cons.mpr ⟨?_, h⟩
        intro y hy
        rcases List.mem_cons.mp hy with rfl | hy'
        · exact le_of_lt hlt
        · exact le_trans (hx y hy') (le_of_lt hlt)
      · simp only [insert_by_last_seen, if_neg hlt]
        refine List.pairwise_cons.mpr ⟨?_, ih hxs⟩
        intro y hy
        rcases mem_insert_by_last_seen.mp hy with rfl | hy'
        · exact not_lt.mp hlt
        · exact hx y hy'

/-- The insertion-sort fold preserves descending sortedness of the
accumulator. -/
theorem sort_aux_pairwise :
    ∀ (l acc : List StreamEntry),
      acc.Pairwise (fun a b => b.last_seen ≤ a.last_seen) →
      (l.foldl (fun acc e => insert_by_last_seen e acc) acc).Pairwise
        (fun a b => b.last_seen ≤ a.last_seen) := by
  intro l
  induction l with
  | nil => intro acc h; exact h
  | cons x xs ih =>
      intro acc h
      exact ih _ (insert_by_last_seen_pairwise x acc h)

/-- Membership through the insertion-sort fold. -/
theorem mem_sort_aux :
    ∀ (l acc : List StreamEntry) (y : StreamEntry),
      y ∈ l.foldl (fun acc e => insert_by_last_seen e acc) acc ↔ y ∈ acc ∨ y ∈ l := by
  intro l
  induction l with
  | nil =>
      intro acc y
      simp
  | cons x xs ih =>
      intro acc y
      rw [List.foldl_cons, ih, mem_insert_by_last_seen]
      simp
      tauto

theorem clamp_eq_self {s lo hi : ℚ} (h0 : lo ≤ s) (h1 : s ≤ hi) : clamp s lo hi = s := by
  unfold clamp
  rw [min_eq_right h1, max_eq_right h0]

theorem clamp_of_inverted (v lo hi : ℚ) (h : hi < lo) : clamp v lo hi = lo := by
  unfold clamp
  exact max_eq_left (le_trans (min_le_left _ _) (le_of_lt h))

theorem clamp_lower (v lo hi : ℚ) : lo ≤ clamp v lo hi := le_max_left lo _

theorem clamp_upper (v lo hi : ℚ) (h : lo ≤ hi) : clamp v lo hi ≤ hi :=
  max_le h (min_le_left _ _)

/- ## Claim theorems -/

/-- C1.  With a well-formed target, an effective smoothing of zero and range
`[out_min, out_max]`, `_apply_mapping` dispatches exactly
`clamp(out_min + clamp(raw, 0, 1) * (out_max - out_min), out_min, out_max)`,
the clamp bounds taken in that order. -/
theorem spec_C1_dispatch_value
    (lv : List (String × ℚ)) (stream : String) (raw : ℚ) (m : Mapping)
    (t d p : Int) (omin omax : ℚ)
    (ht : m.target.track_index = some t)
    (hd : m.target.device_index = some d)
    (hp : m.target.parameter_index = some p)
    (hs : m.smoothing.getD 0 = 0)
    (hr : m.range = some (omin, omax)) :
    (apply_mapping lv stream raw m).2 =
      some ⟨t, d, p, clamp (omin + clamp raw 0 1 * (omax - omin)) omin omax⟩ := by
  have hc : clamp 0 0 1 = (0 : ℚ) := by norm_num [clamp]
  simp only [apply_mapping, ht, hd, hp, hs, hr, hc, Option.getD_some, lt_irrefl, if_false]

/-- C1 witness.  The spec scenario: raw `0.7`, target `(0, 1, 2)`, range
`[20, 80]`, smoothing `0` dispatches exactly `62`. -/
theorem spec_C1_witness :
    (apply_mapping [] "wrist-bend" (7/10) wrist_mapping).2 = some ⟨0, 1, 2, 62⟩ := by
  have h := spec_C1_dispatch_value [] "wrist-bend" (7/10) wrist_mapping
    0 1 2 20 80 rfl rfl rfl rfl rfl
  rw [h]
  norm_num [clamp]

/-- C2.  For smoothing `s ∈ [0,1]`, the value stored into `_last_values`
under the composite key (and later scaled and dispatched) is the convex
combination `s * prev + (1 - s) * cur`, where `cur` is the raw value clamped
to `[0,1]` and `prev` defaults to `cur` itself when no previous value exists
for the key. -/
theorem spec_C2_smoothing_convex
    (lv : List (String × ℚ)) (stream : String) (raw : ℚ) (m : Mapping)
    (s : ℚ) (t d p : Int)
    (ht : m.target.track_index = some t)
    (hd : m.target.device_index = some d)
    (hp : m.target.parameter_index = some p)
    (hsm : m.smoothing = some s)
    (h0 : 0 ≤ s) (h1 : s ≤ 1) :
    (apply_mapping lv stream raw m).1 =
      (mappingKey stream t d p,
        s * ((List.lookup (mappingKey stream t d p) lv).getD (clamp raw 0 1))
          + (1 - s) * clamp raw 0 1) :: lv := by
  have hcs : clamp s 0 1 = s := clamp_eq_self h0 h1
  simp only [apply_mapping, ht, hd, hp, hsm, Option.getD_some, hcs]
  rcases lt_or_eq_of_le h0 with hpos | hzero
  · simp only [if_pos hpos]
  · simp only [← hzero, lt_irrefl, if_false, zero_mul, sub_zero, one_mul, zero_add]

/-- C2 witness.  The spec scenario: smoothing `0.5`, previous smoothed value
`0.2` stored under the composite key, new raw value `1.0` yields smoothed
normalized value `0.6`. -/
theorem spec_C2_witness :
    (apply_mapping [(mappingKey "wrist-bend" 0 1 2, 1/5)] "wrist-bend" 1 blend_mapping).1 =
      (mappingKey "wrist-bend" 0 1 2, 3/5) :: [(mappingKey "wrist-bend" 0 1 2, 1/5)] := by
  have h := spec_C2_smoothing_convex [(mappingKey "wrist-bend" 0 1 2, 1/5)]
    "wrist-bend" 1 blend_mapping (1/2) 0 1 2 rfl rfl rfl rfl (by norm_num) (by norm_num)
  rw [h]
  have hl : List.lookup (mappingKey "wrist-bend" 0 1 2)
      [(mappingKey "wrist-bend" 0 1 2, (1/5 : ℚ))] = some (1/5) := rfl
  rw [hl]
  norm_num [clamp]

/-- C3.  When the mapping's range has `out_min > out_max`, the final clamp
(bounds taken in the given order) collapses every computed value to
`out_min`: the dispatched value is `out_min` for every raw input, every
smoothing state and every smoothing factor. -/
theorem spec_C3_inverted_range_passthrough
    (lv : List (String × ℚ)) (stream : String) (raw : ℚ) (m : Mapping)
    (t d p : Int) (omin omax : ℚ)
    (ht : m.target.track_index = some t)
    (hd : m.target.device_index = some d)
    (hp : m.target.parameter_index = some p)
    (hr : m.range = some (omin, omax))
    (hinv : omax < omin) :
    (apply_mapping lv stream raw m).2 = some ⟨t, d, p, omin⟩ := by
  simp only [apply_mapping, ht, hd, hp, hr, Option.getD_some]
  rw [clamp_of_inverted _ _ _ hinv]

/-- C3 witness.  A mapping with inverted range `[80, 20]` dispatches `80`
for the raw value `0.3`. -/
theorem spec_C3_witness :
    (apply_mapping [] "wrist-bend" (3/10) inverted_mapping).2 = some ⟨0, 1, 2, 80⟩ :=
  spec_C3_inverted_range_passthrough [] "wrist-bend" (3/10) inverted_mapping
    0 1 2 80 20 rfl rfl rfl rfl (by norm_num)

/-- C4.  `get_mappings_for_stream` returns a sublist of the configured
mappings (so relative config order is preserved) and contains a mapping
exactly when it is configured, matches the requested stream, and its
`enabled` field, defaulted to true when absent, is true. -/
theorem spec_C4_get_mappings_exact (cfg : RoutingConfig) (stream : String) :
    List.Sublist (get_mappings_for_stream cfg stream) cfg.mappings ∧
    ∀ m : Mapping, m ∈ get_mappings_for_stream cfg stream ↔
      (m ∈ cfg.mappings ∧ m.motion_stream = stream ∧ m.enabled.getD true = true) := by
  constructor
  · exact List.filter_sublist cfg.mappings
  · intro m
    simp [get_mappings_for_stream, List.mem_filter, and_assoc]

/-- C5 (amended).  Creating a mapping from a valid payload that does not
explicitly disable it, then immediately fetching the mappings for its
stream, returns exactly the one created mapping, and that mapping carries
the submitted target indices. -/
theorem spec_C5_create_then_fetch
    (cfg : RoutingConfig) (now : ℚ) (payload : MappingPayload) (m : Mapping)
    (t d p : Int)
    (hres : resolve_target payload = ⟨some t, some d, some p⟩)
    (hen : payload.enabled ≠ some false)
    (hok : _normalize_mapping_payload now payload = Except.ok m) :
    get_mappings_for_stream (add_mapping cfg m) m.motion_stream = [m] ∧
      m.target = ⟨some t, some d, some p⟩ := by
  obtain ⟨name, t', d', p', _, _, hres', _, htarget, _, henabled, _, _⟩ :=
    normalize_ok_fields now payload m hok
  have htdp : t' = t ∧ d' = d ∧ p' = p := by
    rw [hres] at hres'
    exact ⟨by injection (congrArg Target.track_index hres') with h; exact h.symm,
      by injection (congrArg Target.device_index hres') with h; exact h.symm,
      by injection (congrArg Target.parameter_index hres') with h; exact h.symm⟩
  have henb : m.enabled.getD true = true := by
    rw [henabled]
    rcases hpe : payload.enabled with _ | b
    · rfl
    · cases b
      · exact absurd hpe hen
      · rfl
  refine ⟨get_for_stream_add cfg m henb, ?_⟩
  rw [htarget, htdp.1, htdp.2.1, htdp.2.2]

/-- C5 witness.  Creating from the concrete payload `create_payload` on an
empty configuration and fetching the mappings for `wrist-bend` returns
exactly `created_mapping`, which carries the submitted target `(0, 1, 2)`. -/
theorem spec_C5_witness :
    get_mappings_for_stream (add_mapping ⟨default_settings, []⟩ created_mapping)
        created_mapping.motion_stream = [created_mapping] ∧
      created_mapping.target = ⟨some 0, some 1, some 2⟩ :=
  spec_C5_create_then_fetch ⟨default_settings, []⟩ 0 create_payload created_mapping
    0 1 2 rfl (by simp [create_payload]) rfl

/-- C5 counterexample.  The claim as stated fails on the code: the payload
`disabled_payload` is valid (the create endpoint accepts it and returns the
normalized mapping), yet immediately fetching the mappings for its stream
returns the empty list, not exactly one enabled mapping, because the stored
mapping has `enabled = false`. -/
theorem spec_C5_counterexample :
    _normalize_mapping_payload 0 disabled_payload = Except.ok disabled_mapping ∧
      get_mappings_for_stream (add_mapping ⟨default_settings, []⟩ disabled_mapping)
        "wrist-bend" = [] :=
  ⟨rfl, rfl⟩

/-- C7 (amended).  A create/update operation stores the submitted smoothing
value as given, with no clamp at write time; the clamp to `[0, 1]` is applied
by `_apply_mapping` when the mapping is used, so the effective smoothing
always lies in `[0, 1]`. -/
theorem spec_C7_smoothing_stored_unclamped
    (now : ℚ) (payload : MappingPayload) (s : ℚ) (m : Mapping)
    (hsm : payload.smoothing = some s)
    (hok : _normalize_mapping_payload now payload = Except.ok m) :
    m.smoothing = some s ∧
      0 ≤ clamp (m.smoothing.getD 0) 0 1 ∧ clamp (m.smoothing.getD 0) 0 1 ≤ 1 := by
  obtain ⟨_, _, _, _, _, _, _, _, _, hsmooth, _, _, _⟩ :=
    normalize_ok_fields now payload m hok
  rw [hsm] at hsmooth
  exact ⟨hsmooth, clamp_lower _ _ _, clamp_upper _ _ _ (by norm_num)⟩

/-- C7 witness.  The concrete payload `overdrive_payload` (smoothing `2.5`)
is stored with smoothing exactly `2.5`, and the apply-time clamp of the
stored value lies in `[0, 1]`. -/
theorem spec_C7_witness :
    overdrive_mapping.smoothing = some (5/2) ∧
      0 ≤ clamp (overdrive_mapping.smoothing.getD 0) 0 1 ∧
      clamp (overdrive_mapping.smoothing.getD 0) 0 1 ≤ 1 :=
  spec_C7_smoothing_stored_unclamped 0 overdrive_payload (5/2) overdrive_mapping rfl rfl

/-- C7 counterexample.  The claim as stated fails on the code: the create
operation accepts `overdrive_payload`, whose smoothing `2.5` lies outside
`[0, 1]`, and stores it as given rather than clamping it at write time. -/
theorem spec_C7_counterexample :
    (_normalize_mapping_payload 0 overdrive_payload).toOption.map Mapping.smoothing =
        some (some (5/2)) ∧
      ¬ ((5/2 : ℚ) ≤ 1) := by
  constructor
  · rfl
  · norm_num

/-- C6 refutation (code bug).  The ingestion channel as constructed by the
code is unbounded: an enqueue always grows the queue by one (it never drops
the new batch and never blocks), and for every candidate bound `N` there is
a reachable queue state whose length exceeds `N` (the listener enqueues
`N + 1` batches before the engine dequeues any). -/
theorem spec_C6_queue_unbounded :
    (∀ (q : List MotionSample) (payload : MotionSample),
        (queue_put q payload).length = q.length + 1) ∧
    (∀ N : ℕ, ∃ q : List MotionSample, QueueReachable q ∧ N < q.length) := by
  constructor
  · intro q payload
    simp [queue_put]
  · intro N
    have hreach : ∀ n : ℕ, QueueReachable (List.replicate n ([] : MotionSample)) := by
      intro n
      induction n with
      | zero => exact QueueReachable.init
      | succ k ih =>
          have h := QueueReachable.put (List.replicate k ([] : MotionSample)) [] ih
          simp only [queue_put] at h
          rwa [← List.replicate_succ'] at h
    exact ⟨List.replicate (N + 1) [], hreach (N + 1), by simp⟩

/-- C8 (amended).  On every load, a missing (or non-dictionary) `settings`
key is synthesized as a copy of the built-in default settings — not as an
empty dictionary — and a missing (or non-list) `mappings` key is synthesized
as the empty list; present well-typed values are kept as loaded. -/
theorem spec_C8_load_normalization (doc : RawDoc) :
    ((∀ f, doc.settings ≠ some (SettingsField.dict f)) →
        (load_config_normalize doc).settings = default_settings) ∧
    (∀ f, doc.settings = some (SettingsField.dict f) →
        (load_config_normalize doc).settings = f) ∧
    ((∀ ms, doc.mappings ≠ some (MappingsField.list ms)) →
        (load_config_normalize doc).mappings = []) ∧
    (∀ ms, doc.mappings = some (MappingsField.list ms) →
        (load_config_normalize doc).mappings = ms) := by
  refine ⟨?_, ?_, ?_, ?_⟩
  · intro h
    rcases hds : doc.settings with _ | sf
    · simp [load_config_normalize, hds]
    · rcases sf with f | _
      · exact absurd hds (h f)
      · simp [load_config_normalize, hds]
  · intro f hf
    simp [load_config_normalize, hf]
  · intro h
    rcases hdm : doc.mappings with _ | mf
    · simp [load_config_normalize, hdm]
    · rcases mf with ms | _
      · exact absurd hdm (h ms)
      · simp [load_config_normalize, hdm]
  · intro ms hms
    simp [load_config_normalize, hms]

/-- C8 witness.  A document missing both keys normalizes to the default
settings and the empty mapping list. -/
theorem spec_C8_witness :
    (load_config_normalize ⟨none, none⟩).settings = default_settings ∧
      (load_config_normalize ⟨none, none⟩).mappings = [] := by
  have h := spec_C8_load_normalization ⟨none, none⟩
  exact ⟨h.1 (fun f => by simp), h.2.2.1 (fun ms => by simp)⟩

/-- C8 counterexample.  The claim as stated fails on the code: a document
with no `settings` key gets the non-empty default settings (containing
`mocap_port` and five other keys), not an empty settings dictionary. -/
theorem spec_C8_counterexample :
    (load_config_normalize ⟨none, none⟩).settings ≠ [] ∧
      (load_config_normalize ⟨none, none⟩).settings = default_settings := by
  constructor
  · simp [load_config_normalize, default_settings]
  · rfl

/-- C9 (amended).  `get_recent_streams` returns only names whose last-seen
timestamp satisfies `now - ts ≤ ttl`, but in registry insertion order (it
does not sort); the streams cache written by `_maybe_write_streams_cache`
also contains only entries within the TTL window and is sorted
most-recent-first by last-seen timestamp. -/
theorem spec_C9_discovery_ttl_and_sort
    (reg : List (String × ℚ)) (now ttl : ℚ) :
    (∀ name, name ∈ get_recent_streams reg now ttl →
        ∃ ts, (name, ts) ∈ reg ∧ now - ts ≤ ttl) ∧
    (∀ e : StreamEntry, e ∈ streams_cache_list reg now ttl →
        (e.name, e.last_seen) ∈ reg ∧ now - e.last_seen ≤ ttl) ∧
    (streams_cache_list reg now ttl).Pairwise
      (fun a b => b.last_seen ≤ a.last_seen) := by
  refine ⟨?_, ?_, ?_⟩
  · intro name h
    obtain ⟨x, hx, hfst⟩ := List.mem_map.mp h
    obtain ⟨hin, hcond⟩ := List.mem_filter.mp hx
    refine ⟨x.2, ?_, of_decide_eq_true hcond⟩
    rw [← hfst]
    exact hin
  · intro e h
    rw [streams_cache_list, sort_by_last_seen_desc, mem_sort_aux] at h
    rcases h with h | h
    · simp at h
    · obtain ⟨x, hx, heq⟩ := List.mem_map.mp h
      obtain ⟨hin, hcond⟩ := List.mem_filter.mp hx
      subst heq
      exact ⟨hin, of_decide_eq_true hcond⟩
  · exact sort_aux_pairwise _ [] List.Pairwise.nil

/-- C9 witness.  On the registry `[("a", 1), ("b", 2)]` at `now = 2` with
`ttl = 5`, the listed name `a` comes from a registry entry within the TTL
window, and the streams cache list is sorted most-recent-first. -/
theorem spec_C9_witness :
    (∃ ts, (("a" : String), ts) ∈ [(("a" : String), (1 : ℚ)), ("b", 2)] ∧
        (2 : ℚ) - ts ≤ 5) ∧
      (streams_cache_list [(("a" : String), (1 : ℚ)), ("b", 2)] 2 5).Pairwise
        (fun a b => b.last_seen ≤ a.last_seen) := by
  have h := spec_C9_discovery_ttl_and_sort [("a", 1), ("b", 2)] 2 5
  refine ⟨h.1 "a" ?_, h.2.2⟩
  have : get_recent_streams [(("a" : String), (1 : ℚ)), ("b", 2)] 2 5 = ["a", "b"] := by
    norm_num [get_recent_streams, List.filter]
  rw [this]
  simp

/-- C9 counterexample.  The claim as stated fails on the code: with the
registry `[("a", 1), ("b", 2)]` (both entries within the TTL window at
`now = 2`, and `b` more recent than `a`), a most-recent-first listing would
be `["b", "a"]`, but `get_recent_streams` returns `["a", "b"]` — registry
insertion order, unsorted. -/
theorem spec_C9_counterexample :
    get_recent_streams [(("a" : String), (1 : ℚ)), ("b", 2)] 2 5 = ["a", "b"] ∧
      get_recent_streams [(("a" : String), (1 : ℚ)), ("b", 2)] 2 5 ≠ ["b", "a"] := by
  have h : get_recent_streams [(("a" : String), (1 : ℚ)), ("b", 2)] 2 5 = ["a", "b"] := by
    norm_num [get_recent_streams, List.filter]
  refine ⟨h, ?_⟩
  rw [h]
  simp

/-- C10.  A mapping whose `enabled` key is entirely absent is treated as
enabled: `get_mappings_for_stream` returns it, an explicit `enabled = false`
excludes it, and the Router Engine's per-sample processing dispatches a
command for it when its target is well-formed. -/
theorem spec_C10_absent_enabled_is_enabled
    (cfg : RoutingConfig) (stream : String) (m : Mapping)
    (lv : List (String × ℚ)) (raw : ℚ)
    (hm : m ∈ cfg.mappings) (hs : m.motion_stream = stream) :
    (m.enabled = none → m ∈ get_mappings_for_stream cfg stream) ∧
    (m.enabled = some false → m ∉ get_mappings_for_stream cfg stream) ∧
    (m.enabled = none → has_target m = true →
        (process_stream_sample cfg lv stream raw).2 ≠ []) := by
  refine ⟨?_, ?_, ?_⟩
  · intro hen
    exact List.mem_filter.mpr ⟨hm, by simp [hs, hen]⟩
  · intro hen hmem
    have hcond := (List.mem_filter.mp hmem).2
    simp [hen] at hcond
  · intro hen htgt
    have hmem : m ∈ get_mappings_for_stream cfg stream :=
      List.mem_filter.mpr ⟨hm, by simp [hs, hen]⟩
    exact apply_mappings_ne_nil stream raw m _ lv hmem htgt

/-- C10 witness.  The concrete mapping `bare_mapping` (no `enabled` key) is
returned for its stream and produces a dispatch on a matching sample. -/
theorem spec_C10_witness :
    bare_mapping ∈ get_mappings_for_stream bare_config "hip-sway" ∧
      (process_stream_sample bare_config [] "hip-sway" (1/2)).2 ≠ [] := by
  have h := spec_C10_absent_enabled_is_enabled bare_config "hip-sway" bare_mapping []
    (1/2) (by simp [bare_config]) rfl
  exact ⟨h.1 rfl, h.2.2 rfl rfl⟩

end SmartRouter
